import Mathlib

/-!
Verification model of the action-orchestration core of `src/common.py`
(classes `Test`, `Batch`, `TimerLoop`, `WaitUntilCPUFree`).

Wall-clock time and CPU-load percentages are modelled as exact rationals.
An abstract action records exactly the data the engine inspects: its
`name` (used for logging and exemption matching), its wall-clock
`duration`, whether its `execute()` ends by raising
`pyautogui.FailSafeException` (the fatal abort) or another exception,
and whether the object is an instance of an `AutomaticallyPausedAction`
subclass.  A worker's exception is modelled as raised at the end of its
execution.
-/

/-- How a modelled `execute()` call ends: normal return, raising
`pyautogui.FailSafeException` (fatal), or raising any other exception
(a recoverable step failure). -/
inductive Outcome
  | ok
  | fatal
  | stepError
  deriving DecidableEq

/-- Model of the Python test `a is not AutomaticallyPausedAction`
(in `Test.carry`, `Batch.execute` and `TimerLoop.execute.take`): `is`
compares object identity, and `a` is an instance while
`AutomaticallyPausedAction` is the class object, so the test is true for
every action instance regardless of its class. -/
def isNotAutoPausedCls {α : Type} (_a : α) : Bool := true

/-- A child of a `TimerLoop`, as seen by the engine: name, wall-clock
duration of its `execute()`, and whether that `execute()` raises
`FailSafeException` (at the end of its run, in this model). -/
structure MAction where
  name : String
  duration : ℚ
  fatal : Bool
  deriving DecidableEq

/-- Controller-visible state while `TimerLoop.execute` runs: the current
wall-clock time (0 at entry), the instance's `cancelled` flag, and the
trace of `(child name, worker spawn time)` pairs for every worker thread
started so far. -/
structure LoopState where
  now : ℚ
  cancelled : Bool
  trace : List (String × ℚ)
  deriving DecidableEq

/-- Result of one `take(a, timeout)` call inside `TimerLoop.execute`:
`ok` = returned True, `stop` = returned False (loop expiry),
`raised` = raised `FailSafeException` at the post-join cancelled check. -/
inductive TakeResult
  | ok
  | stop
  | raised
  deriving DecidableEq

/-- How a `TimerLoop.execute` call ends: `expired` = returned normally,
`cancelled` = raised `FailSafeException`, `fuelOut` = the model's
repetition budget ran out while the loop was still running (the Python
loop has no such bound; theorems use sufficient fuel). -/
inductive LoopExit
  | expired
  | cancelled
  | fuelOut
  deriving DecidableEq

/-- Model of `take(a, timeout)` in `TimerLoop.execute`
(src/common.py lines 107-128):
sleep `PAUSE` (the pause-exemption test is always true, see
`isNotAutoPausedCls`); spawn the worker; `t.join(timeout)` waits
`min duration (max timeout 0)` (Python's `Thread.join` treats a negative
timeout as 0); then check `self.cancelled` and raise; then if the worker
is still alive, `t.join()` with no timeout (to completion), and return
False iff the child's name is not in `should_not_stop_when`. -/
def timerTake (p : ℚ) (ex : List String) (a : MAction) (w : ℚ) (s : LoopState) :
    TakeResult × LoopState :=
  let t1 := s.now + (if isNotAutoPausedCls a then p else 0)
  let budget := if w ≤ 0 then 0 else w
  let waited := if a.duration ≤ budget then a.duration else budget
  let finished : Bool := decide (a.duration ≤ budget)
  let cancelled1 := s.cancelled || (a.fatal && finished)
  let tr := s.trace ++ [(a.name, t1)]
  if cancelled1 then (TakeResult.raised, ⟨t1 + waited, cancelled1, tr⟩)
  else if finished then (TakeResult.ok, ⟨t1 + waited, cancelled1, tr⟩)
  else
    let s2 : LoopState := ⟨t1 + a.duration, cancelled1 || a.fatal, tr⟩
    if a.name ∈ ex then (TakeResult.ok, s2) else (TakeResult.stop, s2)

/-- One repetition of the `while True: for action in self.actions` body of
`TimerLoop.execute` (src/common.py lines 130-133).  For each child the
remaining budget is `timeout - time.time() + time_start`, i.e.
`T - s.now + tstart`; `some e` means the loop exits with `e`, `none`
means the repetition ran all children and the loop repeats. -/
def timerRep (p : ℚ) (ex : List String) (T tstart : ℚ) :
    List MAction → LoopState → LoopState × Option LoopExit
  | [], s => (s, none)
  | a :: rest, s =>
    match timerTake p ex a (T - s.now + tstart) s with
    | (TakeResult.ok, s2) => timerRep p ex T tstart rest s2
    | (TakeResult.stop, s2) => (s2, some LoopExit.expired)
    | (TakeResult.raised, s2) => (s2, some LoopExit.cancelled)

/-- The `while True` loop of `TimerLoop.execute`, bounded by `fuel`
repetitions (the Python loop is unbounded; `LoopExit.fuelOut` marks a
run that was still going). -/
def timerRun (p : ℚ) (ex : List String) (T tstart : ℚ) (acts : List MAction) :
    ℕ → LoopState → LoopState × LoopExit
  | 0, s => (s, LoopExit.fuelOut)
  | fuel + 1, s =>
    match timerRep p ex T tstart acts s with
    | (s2, some e) => (s2, e)
    | (s2, none) => timerRun p ex T tstart acts fuel s2

/-- Model of `TimerLoop.execute` (src/common.py lines 102-133).
`p` is `pyautogui.PAUSE`, `T` the constructor's `timeout`, `ex` the
`should_not_stop_when` exemption list, `cancelled0` the instance's
`cancelled` flag at entry (False from `__init__`, line 100; never reset).
If `timeout <= 0` the call returns immediately: no pause, no worker,
empty trace. -/
def TimerLoop_execute (p T : ℚ) (ex : List String) (acts : List MAction)
    (cancelled0 : Bool) (fuel : ℕ) : LoopState × LoopExit :=
  if T ≤ 0 then (⟨0, cancelled0, []⟩, LoopExit.expired)
  else timerRun p ex T 0 acts fuel ⟨0, cancelled0, []⟩

/-- An event on the controller thread while a `Batch` or `Test` runs:
an engine-inserted settling pause (`time.sleep(pyautogui.PAUSE)` /
`Pause(pyautogui.PAUSE).execute()`) or the start of a child's
`execute()`. -/
inductive BEvent
  | pause
  | act (name : String)
  deriving DecidableEq

/-- A child of a `Batch`, as seen by the engine: name, whether the object
is an instance of an `AutomaticallyPausedAction` subclass, and how its
`execute()` ends. -/
structure BAction where
  name : String
  autoPaused : Bool
  outcome : Outcome
  deriving DecidableEq

/-- Model of `Batch.execute` (src/common.py lines 146-152): for each child
in order, sleep `PAUSE` when the (always-true) identity test passes, then
call the child's `execute()`.  There is no exception handler, so the
first child whose `execute()` raises ends the batch with that exception
(`some outcome`); `none` means the batch returned normally.  The first
component is the trace of controller events. -/
def Batch_execute : List BAction → List BEvent × Option Outcome
  | [] => ([], none)
  | a :: rest =>
    let pre : List BEvent := if isNotAutoPausedCls a then [BEvent.pause] else []
    if a.outcome = Outcome.ok then
      let r := Batch_execute rest
      (pre ++ BEvent.act a.name :: r.1, r.2)
    else (pre ++ [BEvent.act a.name], some a.outcome)

/-- A top-level action of a `Test`: a primitive step, a `Batch`, or a
`TimerLoop` (with the parameters of its `execute()` model). -/
inductive TAction
  | prim (name : String) (autoPaused : Bool) (outcome : Outcome)
  | batch (name : String) (children : List BAction)
  | timerLoop (name : String) (p T : ℚ) (ex : List String)
      (acts : List MAction) (cancelled0 : Bool) (fuel : ℕ)
  deriving DecidableEq

/-- The name of a top-level action. -/
def TAction.name : TAction → String
  | TAction.prim n _ _ => n
  | TAction.batch n _ => n
  | TAction.timerLoop n _ _ _ _ _ _ => n

/-- How a top-level action's `execute()` ends, as observed by
`Test.carry`: a `Batch` propagates its first child exception
(`Batch_execute`), and a `TimerLoop` raises `FailSafeException` exactly
when its model exits `cancelled` (src/common.py lines 121-122),
returning normally otherwise.  (`LoopExit.fuelOut` marks a loop still
running; concrete instances in the theorems use sufficient fuel.) -/
def TAction.outcome : TAction → Outcome
  | TAction.prim _ _ o => o
  | TAction.batch _ cs => (Batch_execute cs).2.getD Outcome.ok
  | TAction.timerLoop _ p T ex acts c0 fuel =>
    if (TimerLoop_execute p T ex acts c0 fuel).2 = LoopExit.cancelled then Outcome.fatal
    else Outcome.ok

/-- Model of `Test.carry` (src/common.py lines 45-60): for each action in
order, perform the settling pause when the (always-true) identity test
passes, then call the action's `execute()`.  A
`pyautogui.FailSafeException` makes `carry` return False at once,
skipping the remaining actions; any other exception is logged and the
loop continues; if the list is exhausted `carry` returns True.  The
second component is the trace of controller events. -/
def Test_carry : List TAction → Bool × List BEvent
  | [] => (true, [])
  | a :: rest =>
    let pre : List BEvent := if isNotAutoPausedCls a then [BEvent.pause] else []
    if a.outcome = Outcome.fatal then (false, pre ++ [BEvent.act a.name])
    else
      let r := Test_carry rest
      (r.1, pre ++ BEvent.act a.name :: r.2)

/-- The `(hold, drop)` thresholds chosen by `WaitUntilCPUFree.execute`
(src/common.py lines 169-174): `strict` gives `hold = 0.1, drop = 13`;
otherwise `hold = 0.05, drop = 10`. -/
def settleParams (strict : Bool) : ℚ × ℚ :=
  if strict then (0.1, 13) else (0.05, 10)

/-- The `self.timeout` field set by `WaitUntilCPUFree.__init__`
(src/common.py line 162); the sample ceiling is `timeout * 2 = 20`. -/
def wucfTimeout : ℕ := 10

/-- The polling loop of `WaitUntilCPUFree.execute` (src/common.py lines
175-185), sampling `src idx` on iteration `idx`.  On iteration `idx`:
if not yet declined and `current < last`, set declined; else if declined
and (`initial - last >= drop` or `current - last <= hold`), or
`current < 8`, break (success, `some (Except.ok idx)`); then increment
`count`, and once `count > timeout * 2` raise
`TimeoutError(psutil.cpu_percent())` — a fresh sample, `src (idx + 1)`
(`some (Except.error ...)`); else set `last = current` and loop.
`none` is fuel exhaustion, unreachable from `WaitUntilCPUFree_execute`
because the counter forces an exit within 21 iterations. -/
def wucfGo (hold drop initial : ℚ) (src : ℕ → ℚ) :
    ℕ → ℕ → ℕ → ℚ → Bool → Option (Except ℚ ℕ)
  | 0, _, _, _, _ => none
  | fuel + 1, idx, count, last, declined =>
    let current := src idx
    if declined = false ∧ current < last then
      if count + 1 > wucfTimeout * 2 then some (Except.error (src (idx + 1)))
      else wucfGo hold drop initial src fuel (idx + 1) (count + 1) current true
    else if (declined = true ∧ (initial - last ≥ drop ∨ current - last ≤ hold)) ∨
        current < 8 then
      some (Except.ok idx)
    else
      if count + 1 > wucfTimeout * 2 then some (Except.error (src (idx + 1)))
      else wucfGo hold drop initial src fuel (idx + 1) (count + 1) current declined

/-- Model of `WaitUntilCPUFree.execute` (src/common.py lines 164-185).
`src k` is the value of the `k`-th call to `psutil.cpu_percent()`
(the initial sample is call 0).  `some (Except.ok idx)` means the gate
returned at loop sample `idx`; `some (Except.error q)` means it raised
`TimeoutError` whose message carries `q`.  Fuel 22 covers the at most
21 loop iterations the counter allows. -/
def WaitUntilCPUFree_execute (strict : Bool) (src : ℕ → ℚ) : Option (Except ℚ ℕ) :=
  let initial := src 0
  let hd := settleParams strict
  wucfGo hd.1 hd.2 initial src (wucfTimeout * 2 + 2) 1 0 initial false

/-! ## Helper lemmas about one `take` call -/

/-- If the instance's `cancelled` flag is already set when `take` is
called, the post-join check raises `FailSafeException` — after the
pause, the worker spawn and the bounded join. -/
lemma timerTake_prior_cancelled (p : ℚ) (ex : List String) (a : MAction) (w : ℚ)
    (s : LoopState) (h : s.cancelled = true) :
    timerTake p ex a w s = (TakeResult.raised,
      ⟨s.now + p + (if a.duration ≤ (if w ≤ 0 then 0 else w) then a.duration
          else (if w ≤ 0 then 0 else w)),
        true, s.trace ++ [(a.name, s.now + p)]⟩) := by
  simp [timerTake, isNotAutoPausedCls, h]

/-- A worker that outlasts its (clamped) budget: the controller joins it
to completion — wall clock advances by the pause plus the full duration —
and `take` returns True iff the child's name is exempt.  The instance's
`cancelled` flag afterwards records whether the worker raised
`FailSafeException`, but it is not checked again inside this `take`. -/
lemma timerTake_overrun (p : ℚ) (ex : List String) (a : MAction) (w : ℚ)
    (s : LoopState) (hc : s.cancelled = false) (h0 : 0 < a.duration)
    (hw : w < a.duration) :
    timerTake p ex a w s =
      ((if a.name ∈ ex then TakeResult.ok else TakeResult.stop),
        ⟨s.now + p + a.duration, a.fatal, s.trace ++ [(a.name, s.now + p)]⟩) := by
  have hbudget : ¬ (a.duration ≤ (if w ≤ 0 then 0 else w)) := by
    split
    · exact not_le.mpr h0
    · exact not_le.mpr hw
  simp only [timerTake, isNotAutoPausedCls, if_true, hc, hbudget, decide_False,
    Bool.and_false, Bool.or_false, Bool.false_or, Bool.false_eq_true, if_false,
    eq_self_iff_true]
  split <;> rfl

/-- A worker that finishes within its (clamped) budget and did not raise:
`take` returns True after waiting the worker's duration. -/
lemma timerTake_within (p : ℚ) (ex : List String) (a : MAction) (w : ℚ)
    (s : LoopState) (hc : s.cancelled = false) (hfatal : a.fatal = false)
    (hd : a.duration ≤ (if w ≤ 0 then 0 else w)) :
    timerTake p ex a w s =
      (TakeResult.ok, ⟨s.now + p + a.duration, false, s.trace ++ [(a.name, s.now + p)]⟩) := by
  simp [timerTake, isNotAutoPausedCls, hc, hfatal, hd]

/-! ## Claims about the TimerLoop scheduler -/

/-- C1 (counterexample): spec scenario of §8 — children `step1` (1 time
unit) and `step2` (3 units, exempt), `timeout = 2`, `PAUSE = 0`.  The
claim says no repetition begins after wall-clock 2 has elapsed and that
`remaining ≤ 0` is checked at the top of each repetition before any
child is started.  In the code there is no such check: after the exempt
overrun ends at wall-clock 4 (> 2), a second repetition begins and
`step1`'s worker is spawned at time 4, as the trace records; the loop
only exits (EXPIRED) after joining that extra child to completion at
wall-clock 5, outside the claimed `[0, T + ε]` bound with `ε = 1` the
one non-exempt step's wait. -/
theorem claim1_counterexample :
    TimerLoop_execute 0 2 ["step2"] [⟨"step1", 1, false⟩, ⟨"step2", 3, false⟩] false 2 =
      (⟨5, false, [("step1", 0), ("step2", 1), ("step1", 4)]⟩, LoopExit.expired) ∧
    (2 : ℚ) < 4 := by
  constructor
  · norm_num [TimerLoop_execute, timerRun, timerRep, timerTake, isNotAutoPausedCls]
    simp only [String.reduceEq, reduceIte]
  · norm_num

/-- C1 (amended): `TimerLoop.execute` never checks `remaining ≤ 0` at the
top of a repetition.  When the remaining budget is already ≤ 0 at a
child boundary, the next non-exempt child of positive duration is still
started — the pause is performed and its worker spawned (the trace gains
an entry) — and only after joining that worker to completion does the
loop return normally (EXPIRED).  So a repetition can begin after
wall-clock `T` has elapsed, and the total duration is not bounded by
`T + ε`. -/
theorem claim1_correction (p T tstart : ℚ) (ex : List String) (a : MAction)
    (rest : List MAction) (s : LoopState) (hc : s.cancelled = false)
    (hex : a.name ∉ ex) (hw : T - s.now + tstart ≤ 0) (h0 : 0 < a.duration) :
    timerRep p ex T tstart (a :: rest) s =
      (⟨s.now + p + a.duration, a.fatal, s.trace ++ [(a.name, s.now + p)]⟩,
        some LoopExit.expired) := by
  have h := timerTake_overrun p ex a (T - s.now + tstart) s hc h0 (lt_of_le_of_lt hw h0)
  rw [if_neg hex] at h
  simp [timerRep, h]

/-- C1 (witness): a single non-exempt child of duration 1 begun at
wall-clock 3 with `timeout = 2` (remaining = -1) is still started at
time 3 and the repetition exits EXPIRED at time 4. -/
theorem claim1_witness :
    timerRep 0 [] 2 0 [⟨"late", 1, false⟩] ⟨3, false, []⟩ =
      (⟨4, false, [("late", 3)]⟩, some LoopExit.expired) := by
  have h := claim1_correction 0 2 0 [] ⟨"late", 1, false⟩ [] ⟨3, false, []⟩ rfl
    (by simp) (by norm_num) (by norm_num)
  norm_num at h
  exact h

/-- C2 (counterexample): a single non-exempt child of duration 5 under
`timeout = 2` (`PAUSE = 0`).  The claim says the loop returns EXPIRED
*without waiting for the worker to complete* (the worker is detached).
In the code `t.join()` is called with no timeout before returning, so
the controller's clock at return is 5 — the worker's full duration —
not 2, where a detaching controller would have returned. -/
theorem claim2_counterexample :
    TimerLoop_execute 0 2 [] [⟨"slow", 5, false⟩] false 1 =
      (⟨5, false, [("slow", 0)]⟩, LoopExit.expired) ∧ (2 : ℚ) < 5 := by
  constructor
  · norm_num [TimerLoop_execute, timerRun, timerRep, timerTake, isNotAutoPausedCls]
  · norm_num

/-- C2 (amended): a non-exempt child that does not finish within the
remaining budget makes the loop stop iterating children and return
normally (EXPIRED), discarding the worker's result — but only after
joining the still-running worker to completion (`t.join()` with no
timeout); the worker is not detached, and the controller's clock at
return includes the worker's full duration. -/
theorem claim2_correction (p T tstart : ℚ) (ex : List String) (a : MAction)
    (rest : List MAction) (s : LoopState) (hc : s.cancelled = false)
    (hex : a.name ∉ ex) (h0 : 0 < a.duration)
    (hw : T - s.now + tstart < a.duration) :
    timerRep p ex T tstart (a :: rest) s =
      (⟨s.now + p + a.duration, a.fatal, s.trace ++ [(a.name, s.now + p)]⟩,
        some LoopExit.expired) := by
  have h := timerTake_overrun p ex a (T - s.now + tstart) s hc h0 hw
  rw [if_neg hex] at h
  simp [timerRep, h]

/-- C2 (witness): a non-exempt child of duration 7 begun with remaining
budget 5 is joined to completion (clock 5 → 12) before the EXPIRED
return. -/
theorem claim2_witness :
    timerRep 0 [] 10 0 [⟨"big", 7, false⟩] ⟨5, false, []⟩ =
      (⟨12, false, [("big", 5)]⟩, some LoopExit.expired) := by
  have h := claim2_correction 0 10 0 [] ⟨"big", 7, false⟩ [] ⟨5, false, []⟩ rfl
    (by simp) (by norm_num) (by norm_num)
  norm_num at h
  exact h

/-- C3 (confirmed): an exempt child (`name ∈ should_not_stop_when`) that
outlasts the remaining budget is waited for without any timeout — the
controller's clock advances by the child's full duration, the worker's
outcome is recorded in the `cancelled` flag — no expiry is reported, and
the repetition continues with the subsequent children. -/
theorem claim3_confirmation (p T tstart : ℚ) (ex : List String) (a : MAction)
    (rest : List MAction) (s : LoopState) (hc : s.cancelled = false)
    (hex : a.name ∈ ex) (h0 : 0 < a.duration)
    (hw : T - s.now + tstart < a.duration) :
    timerRep p ex T tstart (a :: rest) s =
      timerRep p ex T tstart rest
        ⟨s.now + p + a.duration, a.fatal, s.trace ++ [(a.name, s.now + p)]⟩ := by
  have h := timerTake_overrun p ex a (T - s.now + tstart) s hc h0 hw
  rw [if_pos hex] at h
  simp [timerRep, h]

/-- C3 (witness): the exempt child `s` (duration 20, budget 10) is waited
for in full, then the loop continues with child `t`, which — started
after the deadline — ends the repetition as EXPIRED at clock 21. -/
theorem claim3_witness :
    timerRep 0 ["s"] 10 0 [⟨"s", 20, false⟩, ⟨"t", 1, false⟩] ⟨0, false, []⟩ =
      (⟨21, false, [("s", 0), ("t", 20)]⟩, some LoopExit.expired) := by
  have h := claim3_confirmation 0 10 0 ["s"] ⟨"s", 20, false⟩ [⟨"t", 1, false⟩]
    ⟨0, false, []⟩ rfl (by simp) (by norm_num) (by norm_num)
  rw [h]
  norm_num [timerRep, timerTake, isNotAutoPausedCls]
  simp only [String.reduceEq, reduceIte]

/-- C9 (confirmed): a `TimerLoop` whose `timeout ≤ 0` returns immediately
from `execute()`: no pause is performed, no worker is spawned (empty
trace), no time passes, and the `cancelled` flag is untouched. -/
theorem claim9_confirmation (p T : ℚ) (ex : List String) (acts : List MAction)
    (cancelled0 : Bool) (fuel : ℕ) (h : T ≤ 0) :
    TimerLoop_execute p T ex acts cancelled0 fuel =
      (⟨0, cancelled0, []⟩, LoopExit.expired) := by
  simp [TimerLoop_execute, h]

/-- C9 (witness): `timeout = 0` with a nonempty child list is a no-op. -/
theorem claim9_witness :
    TimerLoop_execute 1 0 ["x"] [⟨"a", 2, true⟩] false 7 =
      (⟨0, false, []⟩, LoopExit.expired) :=
  claim9_confirmation 1 0 ["x"] [⟨"a", 2, true⟩] false 7 (le_refl 0)

/-- Once the `cancelled` flag is set, every repetition raises at its
first child's post-join check, so the flag can never be observed reset
by `timerRun`. -/
lemma timerRun_keeps_cancelled (p : ℚ) (ex : List String) (T tstart : ℚ)
    (acts : List MAction) :
    ∀ (fuel : ℕ) (s : LoopState), s.cancelled = true →
      (timerRun p ex T tstart acts fuel s).1.cancelled = true := by
  intro fuel
  induction fuel with
  | zero => intro s h; simpa [timerRun] using h
  | succ n ih =>
    intro s h
    cases acts with
    | nil =>
      simp only [timerRun, timerRep]
      exact ih s h
    | cons a rest =>
      have ht := timerTake_prior_cancelled p ex a (T - s.now + tstart) s h
      simp [timerRun, timerRep, ht]

/-- C10 (confirmed): the `cancelled` flag of a `TimerLoop` instance is
monotone — a call to `execute()` entered with `cancelled = true` also
ends with it true — and, since `__init__` set it once and nothing resets
it, any later `execute()` call on the same instance (with `timeout > 0`
and at least one child) raises `FailSafeException` at its first
post-join check: the new call's first child has already been started
(pause performed, worker spawned at time `p`, bounded join taken) even
though the new call observed no new `FailSafeException`. -/
theorem claim10_confirmation :
    (∀ (p T : ℚ) (ex : List String) (acts : List MAction) (fuel : ℕ),
      (TimerLoop_execute p T ex acts true fuel).1.cancelled = true) ∧
    (∀ (p T : ℚ) (ex : List String) (a : MAction) (rest : List MAction) (fuel : ℕ),
      0 < T →
      TimerLoop_execute p T ex (a :: rest) true (fuel + 1) =
        (⟨p + (if a.duration ≤ T then a.duration else T), true, [(a.name, p)]⟩,
          LoopExit.cancelled)) := by
  constructor
  · intro p T ex acts fuel
    by_cases h : T ≤ 0
    · simp [TimerLoop_execute, h]
    · simp only [TimerLoop_execute, if_neg h]
      exact timerRun_keeps_cancelled p ex T 0 acts fuel ⟨0, true, []⟩ rfl
  · intro p T ex a rest fuel h
    have hn : ¬ T ≤ 0 := not_le.mpr h
    have ht := timerTake_prior_cancelled p ex a (T - 0 + 0) ⟨0, true, []⟩ rfl
    rw [sub_zero, add_zero, if_neg hn] at ht
    simp only [TimerLoop_execute, if_neg hn, timerRun, timerRep, sub_zero, add_zero, ht]
    simp

/-- C10 (witness): an instance whose flag is already true raises
`FailSafeException` on a fresh `execute()` call, but only after starting
and join-waiting its first child ("x", duration 2, budget 5): the clock
reaches `1 + 2 = 3` (pause 1 + bounded join 2) and the trace records the
spawn. -/
theorem claim10_witness :
    (TimerLoop_execute 1 5 [] [⟨"x", 2, false⟩] true 3).1.cancelled = true ∧
    TimerLoop_execute 1 5 [] [⟨"x", 2, false⟩] true 3 =
      (⟨3, true, [("x", 1)]⟩, LoopExit.cancelled) := by
  constructor
  · exact claim10_confirmation.1 1 5 [] [⟨"x", 2, false⟩] 3
  · have h := claim10_confirmation.2 1 5 [] ⟨"x", 2, false⟩ [] 2 (by norm_num)
    norm_num at h
    exact h

/-! ## Claims about Test.carry and Batch.execute -/

/-- C4 (confirmed): `Test.carry` returns True when no action's
`execute()` raises `FailSafeException`; and if the actions before `a`
all run without a `FailSafeException` (directly or surfaced by a
`TimerLoop` through its `cancelled` flag) while `a` raises one, `carry`
returns False and the trace ends at `a` — no later action executes. -/
theorem claim4_confirmation :
    (∀ acts : List TAction, (∀ b ∈ acts, b.outcome ≠ Outcome.fatal) →
      (Test_carry acts).1 = true) ∧
    (∀ (pre : List TAction) (a : TAction) (post : List TAction),
      (∀ b ∈ pre, b.outcome ≠ Outcome.fatal) → a.outcome = Outcome.fatal →
      Test_carry (pre ++ a :: post) =
        (false, (Test_carry pre).2 ++ [BEvent.pause, BEvent.act a.name])) := by
  constructor
  · intro acts
    induction acts with
    | nil => intro _; rfl
    | cons a rest ih =>
      intro h
      have ha : a.outcome ≠ Outcome.fatal := h a (List.mem_cons_self a rest)
      have ih2 := ih (fun b hb => h b (List.mem_cons_of_mem a hb))
      simp [Test_carry, if_neg ha, ih2]
  · intro pre a post
    induction pre with
    | nil =>
      intro _ ha
      simp [Test_carry, ha, isNotAutoPausedCls]
    | cons b pre ih =>
      intro h ha
      have hb : b.outcome ≠ Outcome.fatal := h b (List.mem_cons_self b pre)
      have ih2 := ih (fun x hx => h x (List.mem_cons_of_mem b hx)) ha
      simp [Test_carry, if_neg hb, ih2, isNotAutoPausedCls]

/-- C4 (witness): a Test whose middle action is a `TimerLoop` with a
fatal child (the watchdog worker raises, the loop observes the
`cancelled` flag and re-raises) returns False and never reaches the
third action. -/
theorem claim4_witness :
    Test_carry [TAction.prim "a" false Outcome.ok,
        TAction.timerLoop "tl" 0 1 [] [⟨"w", 1, true⟩] false 2,
        TAction.prim "c" false Outcome.ok] =
      (false, [BEvent.pause, BEvent.act "a", BEvent.pause, BEvent.act "tl"]) := by
  have h := claim4_confirmation.2 [TAction.prim "a" false Outcome.ok]
    (TAction.timerLoop "tl" 0 1 [] [⟨"w", 1, true⟩] false 2)
    [TAction.prim "c" false Outcome.ok]
    (by decide)
    (by norm_num [TAction.outcome, TimerLoop_execute, timerRun, timerRep, timerTake,
      isNotAutoPausedCls])
  show Test_carry ([TAction.prim "a" false Outcome.ok] ++
      TAction.timerLoop "tl" 0 1 [] [⟨"w", 1, true⟩] false 2 ::
      [TAction.prim "c" false Outcome.ok]) = _
  rw [h]
  simp [Test_carry, TAction.name, TAction.outcome, isNotAutoPausedCls]

/-- The first child of a `Batch` whose `execute()` raises ends
`Batch_execute` with that exception after the children before it ran
normally; the children after it never run. -/
lemma Batch_execute_raises (pre : List BAction) (b : BAction) (post : List BAction)
    (hpre : ∀ x ∈ pre, x.outcome = Outcome.ok) (hb : b.outcome ≠ Outcome.ok) :
    Batch_execute (pre ++ b :: post) =
      ((Batch_execute pre).1 ++ [BEvent.pause, BEvent.act b.name], some b.outcome) := by
  revert hpre
  induction pre with
  | nil =>
    intro _
    simp [Batch_execute, if_neg hb, isNotAutoPausedCls]
  | cons x pre ih =>
    intro hpre
    have hx : x.outcome = Outcome.ok := hpre x (List.mem_cons_self x pre)
    have ih2 := ih (fun y hy => hpre y (List.mem_cons_of_mem x hy))
    simp [Batch_execute, hx, ih2, isNotAutoPausedCls]

/-- C5 (counterexample): a Batch `[a, b, c]` where `b` raises a
recoverable `StepFailure`.  The claim says the Batch logs and continues
so that `c` still executes and the Batch returns normally.  In the code
`Batch.execute` has no exception handler: the trace stops after `b` —
`c` never runs — and the call ends by propagating the exception
(`some Outcome.stepError`, not a normal return). -/
theorem claim5_counterexample :
    Batch_execute [⟨"a", false, Outcome.ok⟩, ⟨"b", true, Outcome.stepError⟩,
        ⟨"c", false, Outcome.ok⟩] =
      ([BEvent.pause, BEvent.act "a", BEvent.pause, BEvent.act "b"],
        some Outcome.stepError) := by
  simp [Batch_execute, isNotAutoPausedCls]

/-- C5 (amended): when a `Batch` child raises a `StepFailure`, the
exception propagates out of `Batch.execute`: the later children do not
run and the batch does not return normally.  The partial-failure
tolerance sits one level up: a `Test` whose direct child is such a Batch
catches the exception in `carry`, logs it, and continues with the next
top-level action, so `carry`'s result is that of the remaining
actions. -/
theorem claim5_correction (pre : List BAction) (b : BAction) (post : List BAction)
    (nm : String) (rest : List TAction)
    (hpre : ∀ x ∈ pre, x.outcome = Outcome.ok)
    (hb : b.outcome = Outcome.stepError) :
    Batch_execute (pre ++ b :: post) =
      ((Batch_execute pre).1 ++ [BEvent.pause, BEvent.act b.name],
        some Outcome.stepError) ∧
    (Test_carry (TAction.batch nm (pre ++ b :: post) :: rest)).1 =
      (Test_carry rest).1 := by
  have hbo : b.outcome ≠ Outcome.ok := by rw [hb]; simp
  have h1 := Batch_execute_raises pre b post hpre hbo
  rw [hb] at h1
  refine ⟨h1, ?_⟩
  have ho : (TAction.batch nm (pre ++ b :: post)).outcome = Outcome.stepError := by
    simp [TAction.outcome, h1]
  simp [Test_carry, ho]

/-- C5 (witness): the concrete Batch `[a, b(stepError), c]` inside a Test
followed by one more top-level action `z`: the batch propagates, `carry`
catches and the run continues with `z`. -/
theorem claim5_witness :
    Batch_execute ([⟨"a", false, Outcome.ok⟩] ++ ⟨"b", true, Outcome.stepError⟩ ::
        [⟨"c", false, Outcome.ok⟩]) =
      ([BEvent.pause, BEvent.act "a", BEvent.pause, BEvent.act "b"],
        some Outcome.stepError) ∧
    (Test_carry [TAction.batch "B" ([⟨"a", false, Outcome.ok⟩] ++
        ⟨"b", true, Outcome.stepError⟩ :: [⟨"c", false, Outcome.ok⟩]),
      TAction.prim "z" false Outcome.ok]).1 =
      (Test_carry [TAction.prim "z" false Outcome.ok]).1 := by
  have h := claim5_correction [⟨"a", false, Outcome.ok⟩] ⟨"b", true, Outcome.stepError⟩
    [⟨"c", false, Outcome.ok⟩] "B" [TAction.prim "z" false Outcome.ok]
    (by decide) rfl
  refine ⟨?_, h.2⟩
  rw [h.1]
  simp [Batch_execute, isNotAutoPausedCls]

/-- C6 (code_bug): the pre-child settling pause is performed before
*every* child — including those marked by the `AutomaticallyPausedAction`
distinction — in both `Batch.execute` and `Test.carry`, because the
check `action is not AutomaticallyPausedAction` compares the instance
against the class object and is always true (see `isNotAutoPausedCls`);
so no marking makes a child run without the engine-inserted pause,
contradicting the distinction's documented purpose. -/
theorem claim6_bug :
    (∀ a : BAction, (Batch_execute [a]).1 = [BEvent.pause, BEvent.act a.name]) ∧
    (∀ t : TAction, (Test_carry [t]).2 = [BEvent.pause, BEvent.act t.name]) := by
  constructor
  · intro a
    by_cases h : a.outcome = Outcome.ok <;> simp [Batch_execute, h, isNotAutoPausedCls]
  · intro t
    by_cases h : t.outcome = Outcome.fatal <;> simp [Test_carry, h, isNotAutoPausedCls]

/-! ## Claims about WaitUntilCPUFree -/

/-- On a load sequence that is non-decreasing and never below the
absolute floor, no break condition ever fires: `declined` stays false and
the counter runs out, raising with the fresh sample `src 22`. -/
lemma wucfGo_monotone (hold drop initial : ℚ) (src : ℕ → ℚ)
    (hmono : ∀ k, k ≤ 20 → src k ≤ src (k + 1))
    (hfloor : ∀ k, k ≤ 21 → (8 : ℚ) ≤ src k) :
    ∀ (fuel count : ℕ), 21 ≤ count + fuel → count ≤ 20 →
      wucfGo hold drop initial src fuel (count + 1) count (src count) false =
        some (Except.error (src 22)) := by
  intro fuel
  induction fuel with
  | zero => intro count h1 h2; omega
  | succ n ih =>
    intro count h1 h2
    have hlt : ¬ src (count + 1) < src count := not_lt.mpr (hmono count h2)
    have hfl : ¬ src (count + 1) < 8 := not_lt.mpr (hfloor (count + 1) (by omega))
    simp only [wucfGo]
    rw [if_neg (by simp [hlt]), if_neg (by simp [hfl])]
    by_cases h20 : count = 20
    · subst h20
      rw [if_pos (by norm_num [wucfTimeout])]
    · rw [if_neg (by simp [wucfTimeout]; omega)]
      exact ih (count + 1) (by omega) (by omega)

/-- C7 (amended): on a load sequence that never declines and stays at or
above the floor, `WaitUntilCPUFree.execute` raises `TimeoutError` once
the sample counter exceeds the fixed ceiling of 20 post-initial samples
(on the 21st), but the percentage carried by the error is a *freshly
taken* sample — one more call to the load source, `src 22` — not the
final loop sample. -/
theorem claim7_correction (strict : Bool) (src : ℕ → ℚ)
    (hmono : ∀ k, k ≤ 20 → src k ≤ src (k + 1))
    (hfloor : ∀ k, k ≤ 21 → (8 : ℚ) ≤ src k) :
    WaitUntilCPUFree_execute strict src = some (Except.error (src 22)) := by
  have h := wucfGo_monotone (settleParams strict).1 (settleParams strict).2 (src 0)
    src hmono hfloor 22 0 (by omega) (by omega)
  have h22 : wucfTimeout * 2 + 2 = 22 := by norm_num [wucfTimeout]
  simp only [WaitUntilCPUFree_execute, h22]
  simpa using h

/-- The never-declining load sequence of P7: constant 90 through every
loop sample, with the 23rd call to the load source (the fresh sample
taken inside the `raise` statement) returning 50. -/
def c7src : ℕ → ℚ := fun k => if k = 22 then 50 else 90

/-- C7 (counterexample): on `c7src` the gate raises after the ceiling is
exceeded, but the error carries 50 — the freshly taken 23rd sample — and
not 90, the last load observed by the loop, refuting the claim that the
error carries the final loop sample. -/
theorem claim7_counterexample :
    WaitUntilCPUFree_execute false c7src = some (Except.error 50) ∧ (50 : ℚ) ≠ 90 := by
  constructor
  · norm_num [WaitUntilCPUFree_execute, wucfGo, settleParams, wucfTimeout, c7src]
  · norm_num

/-- C7 (witness): the amended statement applied to `c7src`. -/
theorem claim7_witness :
    WaitUntilCPUFree_execute true c7src = some (Except.error (c7src 22)) := by
  apply claim7_correction
  · intro k hk
    have h1 : k ≠ 22 := by omega
    have h2 : k + 1 ≠ 22 := by omega
    simp [c7src, h1, h2]
  · intro k hk
    have h1 : k ≠ 22 := by omega
    simp [c7src, h1]
    norm_num

/-- The load sequence separating the two threshold modes: 90, 89, then
increasing by 0.07 per sample.  After the decline (89 < 90), each step
satisfies `current - last = 0.07 ≤ 0.1` (the strict `hold`) but not
`0.07 ≤ 0.05` (the non-strict `hold`), and `initial - last` stays far
below either `drop`. -/
def c8src : ℕ → ℚ
  | 0 => 90
  | 1 => 89
  | n + 2 => c8src (n + 1) + 7 / 100

/-- C8 (counterexample): the strict thresholds are `hold = 0.1`,
`drop = 13` and the non-strict ones `hold = 0.05`, `drop = 10` — so the
strict `hold` is *larger*, not smaller, than the non-strict one, and the
non-strict `hold` is 0.05, not 10.  Consequently the claimed inclusion
fails: on `c8src` the gate settles at sample 2 under strict thresholds
yet times out (raising with the fresh sample 90.47) under non-strict
ones. -/
theorem claim8_counterexample :
    WaitUntilCPUFree_execute true c8src = some (Except.ok 2) ∧
    WaitUntilCPUFree_execute false c8src = some (Except.error (9047 / 100)) ∧
    (settleParams true).1 = 1 / 10 ∧ (settleParams false).1 = 1 / 20 ∧
    ¬ (settleParams true).1 < (settleParams false).1 := by
  refine ⟨?_, ?_, ?_, ?_, ?_⟩ <;>
    norm_num [WaitUntilCPUFree_execute, wucfGo, settleParams, wucfTimeout, c8src]

/-- C8 (amended): strict mode uses a strictly larger `drop` requirement
(13 vs 10) but also a strictly larger `hold` tolerance (0.1 vs 0.05);
the non-strict thresholds are `drop = 10` and `hold = 0.05` (not 10).
Because the strict `hold` is looser, strict mode is not uniformly more
demanding: there is a load sequence accepted under strict thresholds but
rejected (timeout) under non-strict ones. -/
theorem claim8_correction :
    (settleParams false).2 < (settleParams true).2 ∧
    (settleParams false).1 < (settleParams true).1 ∧
    (settleParams false).2 = 10 ∧ (settleParams false).1 = 1 / 20 ∧
    ∃ src : ℕ → ℚ,
      (∃ i, WaitUntilCPUFree_execute true src = some (Except.ok i)) ∧
      ∃ q, WaitUntilCPUFree_execute false src = some (Except.error q) := by
  refine ⟨by norm_num [settleParams], by norm_num [settleParams],
    by norm_num [settleParams], by norm_num [settleParams],
    c8src, ⟨2, ?_⟩, ⟨9047 / 100, ?_⟩⟩ <;>
    norm_num [WaitUntilCPUFree_execute, wucfGo, settleParams, wucfTimeout, c8src]
